import Mathlib

/-
  Verification development for the metloom point-data library
  (M3Works/metloom): variable registries, station discovery,
  response normalization and the multi-sensor joiner.

  The repository snapshot available here contains the documentation,
  notebooks and changelog of the package but not the Python modules
  themselves (metloom/variables.py, metloom/pointdata/*), so the
  executable definitions below are modelled from the specification's
  description of those modules, kept faithful to its words and to the
  fragments of caller code visible in the notebooks.
-/

namespace Metloom

/-- Modelled from the spec: a SensorDescription is the immutable record
describing one sensor of one network: provider-native code, cross-network
canonical name, human description, and whether values accumulate
(metloom/variables.py is not in the snapshot). -/
structure SensorDescription where
  code : String
  name : String
  long_name : String
  accumulated : Bool := false
deriving DecidableEq, Repr

/-- Modelled from the spec: a variable registry is the ordered catalog of
sensor descriptions one network variant exposes. -/
abbrev Registry : Type := List SensorDescription

/-- Modelled from the spec: lookup(code) returns the first sensor
description in the registry carrying the requested provider code. -/
def lookup (reg : Registry) (c : String) : Option SensorDescription :=
  List.find? (fun s => decide (s.code = c)) reg

/-- Modelled from the spec: the provider codes declared by a registry. -/
def codesOf (reg : Registry) : List String :=
  List.map SensorDescription.code reg

/-- Modelled from the spec: a network variant (a PointData class) carries a
network tag and its active variable registry (ALLOWED_VARIABLES). -/
structure PointDataVariant where
  network : String
  allowedVariables : Registry

/-- Modelled from the spec: extension by substitution - configuring a
variant with a replacement registry swaps the whole registry, it does not
merge the replacement into the default one. -/
def withRegistry (v : PointDataVariant) (reg : Registry) : PointDataVariant :=
  { v with allowedVariables := reg }

/-- Modelled from the spec: the registry a variant actually consults. -/
def activeRegistry (v : PointDataVariant) : Registry :=
  v.allowedVariables

/- Observation tables.  Timestamps are UTC instants modelled as integer
minutes; a value cell is Option-valued, with none as the explicit
absent-value marker (NaN in the real tables). -/

/-- Modelled from the spec: one normalized observation - UTC timestamp,
station id, and the (possibly absent) measured value. -/
structure Obs where
  time : Int
  station : String
  value : Option ℚ
deriving DecidableEq, Repr

/-- The composite (timestamp, station id) key of a normalized row. -/
def keyOf (o : Obs) : Int × String :=
  (o.time, o.station)

/-- The key sequence of a per-variable table, in source order. -/
def keysOf (t : List Obs) : List (Int × String) :=
  List.map keyOf t

/-- Value of the first record of a table carrying the given key; the
absent marker when the table has no such record. -/
def colAt (t : List Obs) (k : Int × String) : Option ℚ :=
  match List.find? (fun o => decide (keyOf o = k)) t with
  | some o => o.value
  | none => none

/-- Keep the first occurrence of every element, dropping later
duplicates; seen accumulates the elements already emitted. -/
def firstOccsAux {α : Type} [DecidableEq α] (seen : List α) : List α → List α
  | [] => []
  | k :: ks =>
    if k ∈ seen then firstOccsAux seen ks
    else k :: firstOccsAux (k :: seen) ks

/-- Deduplicate a list keeping first occurrences in source order. -/
def firstOccs {α : Type} [DecidableEq α] (l : List α) : List α :=
  firstOccsAux [] l

/-- A row of the merged wide table: the composite key plus one value cell
per requested variable, in request order. -/
structure WideRow where
  time : Int
  station : String
  values : List (Option ℚ)
deriving DecidableEq, Repr

/-- Modelled from the spec: the multi-sensor joiner - outer join of the
per-variable tables on (timestamp, station id): the merged key set is the
union of the inputs' keys (first occurrences kept, in source order), and
each row holds, for each variable, the value of the first record with that
key, or the absent marker when that variable has no such record. -/
def outerJoin (ts : List (List Obs)) : List WideRow :=
  List.map (fun k => WideRow.mk k.1 k.2 (List.map (fun t => colAt t k) ts))
    (firstOccs (List.flatten (List.map keysOf ts)))

/-- The merged table's key sequence. -/
def joinKeys (ts : List (List Obs)) : List (Int × String) :=
  List.map (fun r => (r.time, r.station)) (outerJoin ts)

/- Geometry: points with an optional Z coordinate, polygonal regions,
buffered containment. -/

/-- Modelled from the spec: a point geometry that may carry a Z
coordinate (3D coordinates arrive from some sources). -/
structure PointZ where
  x : ℚ
  y : ℚ
  z : Option ℚ := none
deriving DecidableEq, Repr

/-- Modelled from the notebook helper remove_z: project a geometry to 2D
by dropping the Z coordinate. -/
def remove_z (p : PointZ) : PointZ :=
  PointZ.mk p.x p.y none

/-- Modelled from the spec: one monitoring station - id, free-form name,
owning network tag, and location. -/
structure Station where
  id : String
  name : String
  network : String
  geom : PointZ
deriving DecidableEq, Repr

/-- Flatten a station's geometry to 2D. -/
def remove_z_station (s : Station) : Station :=
  { s with geom := remove_z s.geom }

/-- The closed edge list of a polygon given by its vertex ring. -/
def edges (poly : List PointZ) : List (PointZ × PointZ) :=
  match poly with
  | [] => []
  | v :: vs => List.zip (v :: vs) (vs ++ [v])

/-- One step of the even-odd ray-casting containment test: whether the
horizontal ray from p to the right crosses the edge from a to b. -/
def rayCrosses (p a b : PointZ) : Bool :=
  ((decide (a.y ≤ p.y) && decide (p.y < b.y)) ||
    (decide (b.y ≤ p.y) && decide (p.y < a.y))) &&
  decide (p.x < a.x + (p.y - a.y) * (b.x - a.x) / (b.y - a.y))

/-- Even-odd point-in-polygon test on 2D coordinates. -/
def insidePoly (poly : List PointZ) (p : PointZ) : Bool :=
  decide (List.countP (fun e => rayCrosses p e.1 e.2) (edges poly) % 2 = 1)

/-- Squared planar distance from p to the segment from a to b. -/
def sqDistSeg (p a b : PointZ) : ℚ :=
  let dx := b.x - a.x
  let dy := b.y - a.y
  let len2 := dx * dx + dy * dy
  if len2 = 0 then (p.x - a.x) ^ 2 + (p.y - a.y) ^ 2
  else
    let t := max 0 (min 1 (((p.x - a.x) * dx + (p.y - a.y) * dy) / len2))
    (p.x - (a.x + t * dx)) ^ 2 + (p.y - (a.y + t * dy)) ^ 2

/-- Modelled from the spec: containment in the region expanded by a
buffer margin - the point lies inside the polygon or within buffer of its
boundary; both region and point are projected to 2D first. -/
def bufferedContains (poly : List PointZ) (buffer : ℚ) (p : PointZ) : Bool :=
  insidePoly (List.map remove_z poly) (remove_z p) ||
    List.any (edges (List.map remove_z poly))
      (fun e => decide (sqDistSeg (remove_z p) e.1 e.2 ≤ buffer ^ 2))

/-- An axis-aligned bounding box. -/
structure BBox where
  xmin : ℚ
  xmax : ℚ
  ymin : ℚ
  ymax : ℚ
deriving DecidableEq, Repr

/-- Bounding box of a polygon's vertices. -/
def bboxOf (poly : List PointZ) : BBox :=
  match poly with
  | [] => BBox.mk 0 0 0 0
  | v :: vs =>
    List.foldl
      (fun bb q => BBox.mk (min bb.xmin q.x) (max bb.xmax q.x)
        (min bb.ymin q.y) (max bb.ymax q.y))
      (BBox.mk v.x v.x v.y v.y) vs

/-- Membership in a bounding box expanded by a buffer margin. -/
def bboxContains (bb : BBox) (buffer : ℚ) (p : PointZ) : Bool :=
  decide (bb.xmin - buffer ≤ p.x) && decide (p.x ≤ bb.xmax + buffer) &&
    decide (bb.ymin - buffer ≤ p.y) && decide (p.y ≤ bb.ymax + buffer)

/-- Modelled from the spec: the variables argument of discovery only
checks that the network's registry supports at least one requested
variable - no availability round trip. -/
def supportsAny (reg : Registry) (vars : List SensorDescription) : Bool :=
  List.any vars (fun sd => List.any reg (fun s => decide (s = sd)))

/-- Modelled from the spec: station discovery - the region is projected
to 2D and optionally buffered; stations of the variant are kept, in
catalog order, when the network supports a requested variable and the
station passes the containment test (or, when within_geometry is false,
the buffered bounding-box test); retained stations are surfaced with
their geometries flattened to 2D. -/
def points_from_geometry (v : PointDataVariant) (catalog : List Station)
    (region : List PointZ) (vars : List SensorDescription)
    (buffer : ℚ) (within_geometry : Bool) : List Station :=
  List.map remove_z_station
    (List.filter
      (fun s =>
        supportsAny (activeRegistry v) vars &&
          (if within_geometry then
            bufferedContains region buffer s.geom
          else
            bboxContains (bboxOf (List.map remove_z region)) buffer s.geom))
      catalog)

/- Response normalization: raw records, the no-data sentinel, NoData. -/

/-- A raw per-variable record as a provider returns it: a timestamp and a
numeric value (which may be the provider's no-data sentinel). -/
structure RawRecord where
  time : Int
  value : ℚ
deriving DecidableEq, Repr

/-- Modelled from the spec: the provider-specific no-data sentinel value
(for example -9999). -/
def noDataSentinel : ℚ := -9999

/-- Modelled from the spec: strip the sentinel to the explicit absent
marker, keep real values. -/
def stripSentinel (v : ℚ) : Option ℚ :=
  if v = noDataSentinel then none else some v

/-- Modelled from the spec: the response normalizer for one station and
one variable - one output row per input record, sentinel values mapped to
the absent marker. -/
def normalizeResponse (stationId : String) (records : List RawRecord) : List Obs :=
  List.map (fun rec => Obs.mk rec.time stationId (stripSentinel rec.value)) records

/-- Modelled from the spec: single-variable retrieval - the NoData
outcome (none) exactly when the provider has zero records, otherwise the
normalized table. -/
def get_data (stationId : String) (records : List RawRecord) : Option (List Obs) :=
  if records.isEmpty then none
  else some (normalizeResponse stationId records)

/- Timezone normalization around a clock transition. -/

/-- Modelled from the spec: a timezone with one clock transition at a
given UTC instant - before it the UTC offset (in minutes east) is
beforeOffset, from it on it is afterOffset. -/
structure TZRule where
  beforeOffset : Int
  afterOffset : Int
  transitionUtc : Int
deriving DecidableEq, Repr

/-- The UTC offset in force at a UTC instant. -/
def offsetAt (tz : TZRule) (utc : Int) : Int :=
  if utc < tz.transitionUtc then tz.beforeOffset else tz.afterOffset

/-- The local civil time a UTC instant renders to. -/
def utcToLocal (tz : TZRule) (utc : Int) : Int :=
  utc + offsetAt tz utc

/-- The standard-time offset: the smaller of the two offsets, daylight
time being ahead of standard time. -/
def stdOffset (tz : TZRule) : Int :=
  min tz.beforeOffset tz.afterOffset

/-- The daylight-time offset: the larger of the two offsets. -/
def dstOffset (tz : TZRule) : Int :=
  max tz.beforeOffset tz.afterOffset

/-- A local civil time is repeated (ambiguous) when both candidate UTC
instants render back to it and the two offsets differ. -/
def ambiguousLocal (tz : TZRule) (localT : Int) : Prop :=
  utcToLocal tz (localT - stdOffset tz) = localT ∧
    utcToLocal tz (localT - dstOffset tz) = localT ∧
    stdOffset tz ≠ dstOffset tz

instance (tz : TZRule) (localT : Int) : Decidable (ambiguousLocal tz localT) :=
  inferInstanceAs (Decidable (utcToLocal tz (localT - stdOffset tz) = localT ∧
    utcToLocal tz (localT - dstOffset tz) = localT ∧ stdOffset tz ≠ dstOffset tz))

/-- A local civil time is nonexistent (skipped) when neither candidate
UTC instant renders back to it. -/
def nonexistentLocal (tz : TZRule) (localT : Int) : Prop :=
  utcToLocal tz (localT - stdOffset tz) ≠ localT ∧
    utcToLocal tz (localT - dstOffset tz) ≠ localT

instance (tz : TZRule) (localT : Int) : Decidable (nonexistentLocal tz localT) :=
  inferInstanceAs (Decidable (utcToLocal tz (localT - stdOffset tz) ≠ localT ∧
    utcToLocal tz (localT - dstOffset tz) ≠ localT))

/-- Modelled from the spec: local-to-UTC conversion resolving repeated or
nonexistent civil times with the fixed policy of preferring the
standard-time offset, never raising. -/
def localToUtc (tz : TZRule) (localT : Int) : Int :=
  if utcToLocal tz (localT - stdOffset tz) = localT then localT - stdOffset tz
  else if utcToLocal tz (localT - dstOffset tz) = localT then localT - dstOffset tz
  else localT - stdOffset tz

/-- Modelled from the spec: timestamp normalization of a raw response -
each local-time record maps to exactly one UTC-stamped record. -/
def normalizeTimes (tz : TZRule) (records : List RawRecord) : List RawRecord :=
  List.map (fun rec => RawRecord.mk (localToUtc tz rec.time) rec.value) records

/- The multi-variable retrieval pipeline and the station collection. -/

/-- A row of a retrieval result: the composite key, the datasource tag of
the providing network, and one value cell per requested variable. -/
structure OutRow where
  time : Int
  station : String
  datasource : String
  values : List (Option ℚ)
deriving DecidableEq, Repr

/-- Modelled from the spec: multi-variable retrieval for one station -
the NoData outcome (none) when the provider has zero records for every
requested variable; otherwise the per-variable normalized tables are
outer-joined and every merged row is tagged with the providing network in
its datasource column. -/
def get_daily_data (v : PointDataVariant) (st : Station)
    (perVariable : List (List RawRecord)) : Option (List OutRow) :=
  if List.all perVariable List.isEmpty then none
  else
    some (List.map
      (fun r => OutRow.mk r.time r.station v.network r.values)
      (outerJoin (List.map (fun records => normalizeResponse st.id records) perVariable)))

/-- A row of the flat table a station collection converts to. -/
structure StationRow where
  id : String
  name : String
  datasource : String
  geom : PointZ
deriving DecidableEq, Repr

/-- Modelled from the spec: a station collection converts on demand to a
flat table with one row per station carrying id, name, datasource and
geometry. -/
def to_dataframe (stations : List Station) : List StationRow :=
  List.map (fun s => StationRow.mk s.id s.name s.network s.geom) stations

/-- Requested temporal granularity of a retrieval. -/
inductive Resolution where
  | daily
  | hourly
  | instantaneous
  | snowCourse
deriving DecidableEq, Repr

/-- Modelled from the spec and the 0.1.5 changelog: the column list of a
retrieval result - the measurementDate column is included only with
snow-course requests. -/
def outputColumns (res : Resolution) (varNames : List String) : List String :=
  ["datetime", "stationId", "datasource"] ++ varNames ++
    (if res = Resolution.snowCourse then ["measurementDate"] else [])

/- Concrete sample data, taken from the usage documentation, used to
instantiate the universally quantified results below. -/

/-- The CDEC relative-humidity sensor from the usage docs. -/
def RH : SensorDescription :=
  SensorDescription.mk "12" "Relative Humidity" "RELATIVE HUMIDITY [%]" false

/-- The CDEC wind-speed sensor from the usage docs. -/
def WINDSP : SensorDescription :=
  SensorDescription.mk "9" "Wind Speed" "WIND SPEED [mph]" false

/-- The CDEC peak-gust sensor added by the extension example. -/
def PEAKGUST : SensorDescription :=
  SensorDescription.mk "77" "WIND GUST" "WIND, PEAK GUST" false

/-- A small CDEC registry holding the documented sensors. -/
def cdecRegistry : Registry := [RH, WINDSP]

/-- The extension example's superseding registry: the full vocabulary,
base sensors plus the new one. -/
def extendedCdecRegistry : Registry := [RH, WINDSP, PEAKGUST]

/-- The CDEC network variant with its default registry. -/
def CDECPointData : PointDataVariant :=
  PointDataVariant.mk "CDEC" cdecRegistry

/-- Tenaya Lake, a documented CDEC station, here with a Z coordinate on
its geometry. -/
def tenayaLake : Station :=
  Station.mk "TNY" "Tenaya Lake" "CDEC" (PointZ.mk 1 1 (some 2478))

/-- Gin Flat, a documented CDEC station, placed outside the sample
region. -/
def ginFlat : Station :=
  Station.mk "GIN" "Gin Flat" "CDEC" (PointZ.mk 7 7 none)

/-- A square sample region, one vertex carrying a Z coordinate. -/
def squareRegion : List PointZ :=
  [PointZ.mk 0 0 (some 5), PointZ.mk 4 0 none, PointZ.mk 4 4 none, PointZ.mk 0 4 none]

/-- Sample normalized table for variable A: timestamps 1 and 2. -/
def tabA : List Obs :=
  [Obs.mk 1 "TNY" (some 100), Obs.mk 2 "TNY" (some 101)]

/-- Sample normalized table for variable B: timestamps 2 and 3. -/
def tabB : List Obs :=
  [Obs.mk 2 "TNY" (some 7), Obs.mk 3 "TNY" (some 8)]

/-- Sample table with two records sharing one (timestamp, station) key. -/
def tabDup : List Obs :=
  [Obs.mk 5 "TNY" (some 20), Obs.mk 5 "TNY" (some 21)]

/-- A fall-back transition: offsets -420 then -480 minutes, switching at
UTC minute 600. -/
def pacificFallBack : TZRule :=
  TZRule.mk (-420) (-480) 600

/-- A raw response whose rows are all the no-data sentinel. -/
def allAbsentRecords : List RawRecord :=
  [RawRecord.mk 1 (-9999), RawRecord.mk 2 (-9999)]

/-- Raw records of variable A at timestamps 1 and 2. -/
def recsA : List RawRecord :=
  [RawRecord.mk 1 100, RawRecord.mk 2 101]

/-- Raw records of variable B at timestamps 2 and 3. -/
def recsB : List RawRecord :=
  [RawRecord.mk 2 7, RawRecord.mk 3 8]

/-- The merged output of retrieving variables A and B for Tenaya Lake. -/
def sampleRows : List OutRow :=
  [OutRow.mk 1 "TNY" "CDEC" [some 100, none],
   OutRow.mk 2 "TNY" "CDEC" [some 101, some 7],
   OutRow.mk 3 "TNY" "CDEC" [none, some 8]]

end Metloom

namespace Metloom

theorem mem_firstOccsAux {α : Type} [DecidableEq α] (l : List α) :
    ∀ seen a, a ∈ firstOccsAux seen l ↔ a ∈ l ∧ a ∉ seen := by
  induction l with
  | nil => intro seen a; simp [firstOccsAux]
  | cons k ks ih =>
    intro seen a
    by_cases hk : k ∈ seen
    · simp only [firstOccsAux, if_pos hk, ih, List.mem_cons]
      by_cases hak : a = k
      · subst hak; tauto
      · tauto
    · simp only [firstOccsAux, if_neg hk, ih, List.mem_cons]
      by_cases hak : a = k
      · subst hak; tauto
      · tauto

theorem nodup_firstOccsAux {α : Type} [DecidableEq α] (l : List α) :
    ∀ seen, List.Nodup (firstOccsAux seen l) := by
  induction l with
  | nil => intro seen; simp [firstOccsAux]
  | cons k ks ih =>
    intro seen
    by_cases hk : k ∈ seen
    · simpa [firstOccsAux, if_pos hk] using ih seen
    · simp only [firstOccsAux, if_neg hk]
      refine List.Nodup.cons ?_ (ih (k :: seen))
      intro hcon
      rcases (mem_firstOccsAux ks (k :: seen) k).mp hcon with ⟨_, hs⟩
      exact hs (List.mem_cons_self _ _)

theorem mem_firstOccs {α : Type} [DecidableEq α] (l : List α) (a : α) :
    a ∈ firstOccs l ↔ a ∈ l := by
  simp [firstOccs, mem_firstOccsAux]

theorem nodup_firstOccs {α : Type} [DecidableEq α] (l : List α) :
    List.Nodup (firstOccs l) :=
  nodup_firstOccsAux l []

theorem find?_append_first {α : Type} (p : α → Bool) (pre post : List α) (o : α)
    (hpre : ∀ a ∈ pre, p a = false) (ho : p o = true) :
    List.find? p (pre ++ o :: post) = some o := by
  induction pre with
  | nil => simpa using List.find?_cons_of_pos post ho
  | cons a l ih =>
    have ha : ¬p a = true := by
      simp [hpre a (List.mem_cons_self a l)]
    rw [List.cons_append, List.find?_cons_of_neg _ ha]
    exact ih fun b hb => hpre b (List.mem_cons_of_mem a hb)

theorem colAt_of_not_mem (t : List Obs) (k : Int × String) (h : k ∉ keysOf t) :
    colAt t k = none := by
  unfold colAt
  have hnone : List.find? (fun o => decide (keyOf o = k)) t = none := by
    rw [List.find?_eq_none]
    intro o ho
    simp only [decide_eq_true_eq]
    intro hk
    exact h (hk ▸ List.mem_map_of_mem keyOf ho)
  rw [hnone]

theorem colAt_first (pre post : List Obs) (o : Obs)
    (hfirst : ∀ o2 ∈ pre, keyOf o2 ≠ keyOf o) :
    colAt (pre ++ o :: post) (keyOf o) = o.value := by
  unfold colAt
  rw [find?_append_first (fun o2 => decide (keyOf o2 = keyOf o)) pre post o
    (fun a ha => by simpa using hfirst a ha) (by simp)]

theorem joinKeys_eq (ts : List (List Obs)) :
    joinKeys ts = firstOccs (List.flatten (List.map keysOf ts)) := by
  unfold joinKeys outerJoin
  rw [List.map_map]
  have hid : ((fun r : WideRow => (r.time, r.station)) ∘
      (fun k : Int × String =>
        WideRow.mk k.1 k.2 (List.map (fun t => colAt t k) ts))) = id := by
    funext k
    rfl
  rw [hid, List.map_id]

theorem mem_joinKeys (ts : List (List Obs)) (k : Int × String) :
    k ∈ joinKeys ts ↔ ∃ t ∈ ts, k ∈ keysOf t := by
  rw [joinKeys_eq, mem_firstOccs, List.mem_flatten]
  constructor
  · rintro ⟨l, hl, hk⟩
    rcases List.mem_map.mp hl with ⟨t, ht, rfl⟩
    exact ⟨t, ht, hk⟩
  · rintro ⟨t, ht, hk⟩
    exact ⟨keysOf t, List.mem_map_of_mem keysOf ht, hk⟩

theorem nodup_joinKeys (ts : List (List Obs)) : List.Nodup (joinKeys ts) := by
  rw [joinKeys_eq]
  exact nodup_firstOccs _

theorem outerJoin_values (ts : List (List Obs)) (r : WideRow) (hr : r ∈ outerJoin ts) :
    r.values = List.map (fun t => colAt t (r.time, r.station)) ts := by
  unfold outerJoin at hr
  rcases List.mem_map.mp hr with ⟨k, hk, rfl⟩
  rfl

theorem remove_z_idem (p : PointZ) : remove_z (remove_z p) = remove_z p :=
  rfl

theorem map_remove_z_idem (l : List PointZ) :
    List.map remove_z (List.map remove_z l) = List.map remove_z l := by
  rw [List.map_map]
  exact List.map_congr_left fun p _ => rfl

theorem bufferedContains_mono (poly : List PointZ) (b1 b2 : ℚ) (p : PointZ)
    (h0 : 0 ≤ b1) (h12 : b1 ≤ b2) (h : bufferedContains poly b1 p = true) :
    bufferedContains poly b2 p = true := by
  simp only [bufferedContains, Bool.or_eq_true, List.any_eq_true,
    decide_eq_true_eq] at h ⊢
  rcases h with h | ⟨e, he, hle⟩
  · exact Or.inl h
  · exact Or.inr ⟨e, he, le_trans hle (pow_le_pow_left₀ h0 h12 2)⟩

theorem bboxContains_mono (bb : BBox) (b1 b2 : ℚ) (p : PointZ)
    (h12 : b1 ≤ b2) (h : bboxContains bb b1 p = true) :
    bboxContains bb b2 p = true := by
  simp only [bboxContains, Bool.and_eq_true, decide_eq_true_eq] at h ⊢
  obtain ⟨⟨⟨h1, h2⟩, h3⟩, h4⟩ := h
  refine ⟨⟨⟨by linarith, by linarith⟩, by linarith⟩, by linarith⟩

/-- Claim C1: merging two variables A and B fetched for the same station
and range outer-joins on (timestamp, station id) - the merged key set is
exactly the union of A's and B's key sets, and a row whose key appears in
only one variable's table carries the explicit absent marker in the other
variable's column instead of being dropped. -/
theorem outer_join_completeness (A B : List Obs) :
    (∀ k, k ∈ joinKeys [A, B] ↔ (k ∈ keysOf A ∨ k ∈ keysOf B)) ∧
    (∀ r ∈ outerJoin [A, B],
      ((r.time, r.station) ∉ keysOf B →
        r.values = [colAt A (r.time, r.station), none]) ∧
      ((r.time, r.station) ∉ keysOf A →
        r.values = [none, colAt B (r.time, r.station)])) := by
  constructor
  · intro k
    rw [mem_joinKeys]
    constructor
    · rintro ⟨t, ht, hk⟩
      rcases List.mem_cons.mp ht with rfl | ht
      · exact Or.inl hk
      · rcases List.mem_cons.mp ht with rfl | ht
        · exact Or.inr hk
        · exact absurd ht (List.not_mem_nil t)
    · rintro (hk | hk)
      · exact ⟨A, by simp, hk⟩
      · exact ⟨B, by simp, hk⟩
  · intro r hr
    have hv := outerJoin_values [A, B] r hr
    constructor
    · intro hB
      rw [hv]
      simp [colAt_of_not_mem B _ hB]
    · intro hA
      rw [hv]
      simp [colAt_of_not_mem A _ hA]

/-- Instance of C1 on the documented two-variable example: timestamp 1
appears only in A, so the merged row at 1 exists and carries the absent
marker in B's column. -/
theorem outer_join_completeness_example :
    ((1 : Int), "TNY") ∈ joinKeys [tabA, tabB] ∧
    (WideRow.mk 1 "TNY" [some 100, none]).values =
      [colAt tabA (1, "TNY"), none] := by
  constructor
  · exact ((outer_join_completeness tabA tabB).1 (1, "TNY")).mpr (Or.inl (by decide))
  · exact ((outer_join_completeness tabA tabB).2
      (WideRow.mk 1 "TNY" [some 100, none]) (by decide)).1 (by decide)

/-- Claim C4: when a provider returns several records for one
(timestamp, station, variable) key, the joiner keeps the first occurrence
in source order and drops the rest without failing, and the merged table
has no duplicate (timestamp, station) rows - the duplicated key appears in
exactly one merged row. -/
theorem join_duplicate_first_kept (ts : List (List Obs)) (t : List Obs)
    (ht : t ∈ ts) (pre post : List Obs) (o : Obs) (heq : t = pre ++ o :: post)
    (hfirst : ∀ o2 ∈ pre, keyOf o2 ≠ keyOf o) :
    colAt t (keyOf o) = o.value ∧
    List.Nodup (joinKeys ts) ∧
    List.length (List.filter (fun k2 => decide (k2 = keyOf o)) (joinKeys ts)) = 1 := by
  refine ⟨?_, nodup_joinKeys ts, ?_⟩
  · rw [heq]
    exact colAt_first pre post o hfirst
  · have hmem : keyOf o ∈ joinKeys ts := by
      rw [mem_joinKeys]
      refine ⟨t, ht, ?_⟩
      rw [heq]
      unfold keysOf
      rw [List.map_append]
      exact List.mem_append_right _ (by simp)
    have hcnt := List.count_eq_one_of_mem (nodup_joinKeys ts) hmem
    rw [← List.countP_eq_length_filter]
    exact hcnt

/-- Instance of C4 on a table holding two records for key (5, TNY): the
joined value is the first record's and the key appears once. -/
theorem join_duplicate_first_kept_example :
    colAt tabDup (keyOf (Obs.mk 5 "TNY" (some 20))) = some 20 ∧
    List.Nodup (joinKeys [tabDup]) ∧
    List.length (List.filter
      (fun k2 => decide (k2 = keyOf (Obs.mk 5 "TNY" (some 20))))
      (joinKeys [tabDup])) = 1 :=
  join_duplicate_first_kept [tabDup] tabDup (by decide) []
    [Obs.mk 5 "TNY" (some 21)] (Obs.mk 5 "TNY" (some 20)) (by decide) (by decide)

/-- Claim C2: a request with zero upstream records yields the NoData
outcome (none - a routine non-error value, not a table), while a nonempty
response yields a valid table with one row per record even when every
value is the no-data sentinel - the two outcomes are never conflated. -/
theorem no_data_distinction (stationId : String) (records : List RawRecord) :
    (get_data stationId records = none ↔ records = []) ∧
    (records ≠ [] →
      get_data stationId records = some (normalizeResponse stationId records) ∧
      List.length (normalizeResponse stationId records) = List.length records) ∧
    ((∀ rec ∈ records, rec.value = noDataSentinel) →
      ∀ row ∈ normalizeResponse stationId records, row.value = none) := by
  refine ⟨?_, ?_, ?_⟩
  · unfold get_data
    by_cases hemp : records.isEmpty
    · rw [if_pos hemp]
      simp [List.isEmpty_iff.mp hemp]
    · rw [if_neg hemp]
      simp only [reduceCtorEq, false_iff]
      intro hnil
      exact hemp (by simp [hnil])
  · intro hne
    have hemp : ¬records.isEmpty := by
      simpa [List.isEmpty_iff] using hne
    refine ⟨?_, by simp [normalizeResponse]⟩
    unfold get_data
    rw [if_neg hemp]
  · intro hall row hrow
    unfold normalizeResponse at hrow
    rcases List.mem_map.mp hrow with ⟨rec, hrec, rfl⟩
    simp [stripSentinel, hall rec hrec]

/-- Instance of C2: a two-row all-sentinel response yields a valid table
whose rows all carry the absent marker, not NoData. -/
theorem no_data_distinction_example :
    get_data "TNY" allAbsentRecords =
      some (normalizeResponse "TNY" allAbsentRecords) ∧
    ∀ row ∈ normalizeResponse "TNY" allAbsentRecords, row.value = none := by
  refine ⟨((no_data_distinction "TNY" allAbsentRecords).2.1 (by decide)).1, ?_⟩
  exact (no_data_distinction "TNY" allAbsentRecords).2.2 (by decide)

/-- Claim C3: a source local time lying in a repeated or nonexistent
interval at a clock transition is resolved to the single UTC instant
given by the standard-time offset - the fixed documented policy - and
timestamp normalization maps each record to exactly one row, never two
conflicting rows and never an error. -/
theorem tz_transition_policy (tz : TZRule) (localT : Int)
    (h : ambiguousLocal tz localT ∨ nonexistentLocal tz localT) :
    localToUtc tz localT = localT - stdOffset tz ∧
    ∀ records : List RawRecord,
      List.length (normalizeTimes tz records) = List.length records := by
  refine ⟨?_, fun records => by simp [normalizeTimes]⟩
  unfold localToUtc
  rcases h with ⟨hstd, _, _⟩ | ⟨hstd, hdst⟩
  · rw [if_pos hstd]
  · rw [if_neg hstd, if_neg hdst]

/-- Instance of C3: local minute 150 (02:30) is repeated at the sample
fall-back transition and resolves to the standard-offset UTC instant. -/
theorem tz_transition_policy_example :
    localToUtc pacificFallBack 150 = 150 - stdOffset pacificFallBack :=
  (tz_transition_policy pacificFallBack 150 (Or.inl (by decide))).1

/-- Claim C5: configuring a network variant with a replacement registry
substitutes the active registry whole - the active registry is exactly the
replacement, entries of the default registry outside the replacement are
gone, and a replacement with unique codes yields an active registry with
unique codes, so extension never silently shadows or duplicates names. -/
theorem registry_extension_substitution (v : PointDataVariant) (reg : Registry) :
    activeRegistry (withRegistry v reg) = reg ∧
    (∀ s : SensorDescription, s ∈ activeRegistry (withRegistry v reg) ↔ s ∈ reg) ∧
    (List.Nodup (codesOf reg) →
      List.Nodup (codesOf (activeRegistry (withRegistry v reg)))) ∧
    (∀ s ∈ activeRegistry v, s ∉ reg → s ∉ activeRegistry (withRegistry v reg)) := by
  refine ⟨rfl, fun s => Iff.rfl, fun h => h, ?_⟩
  intro s _ hnot hcon
  exact hnot hcon

/-- Instance of C5: extending the CDEC variant with the documented
superseding registry makes that full-vocabulary registry the active one,
with its codes still unique. -/
theorem registry_extension_substitution_example :
    activeRegistry (withRegistry CDECPointData extendedCdecRegistry) =
      extendedCdecRegistry ∧
    List.Nodup (codesOf (activeRegistry
      (withRegistry CDECPointData extendedCdecRegistry))) :=
  ⟨(registry_extension_substitution CDECPointData extendedCdecRegistry).1,
   (registry_extension_substitution CDECPointData extendedCdecRegistry).2.2.1
     (by decide)⟩

/-- Claim C6: for nonnegative buffers b1 le b2 and all other arguments
equal, every station discovered with buffer b1 is also discovered with
buffer b2 - increasing the buffer never removes a station. -/
theorem buffer_monotone (v : PointDataVariant) (catalog : List Station)
    (region : List PointZ) (vars : List SensorDescription) (b1 b2 : ℚ)
    (wg : Bool) (h0 : 0 ≤ b1) (h12 : b1 ≤ b2) :
    ∀ s ∈ points_from_geometry v catalog region vars b1 wg,
      s ∈ points_from_geometry v catalog region vars b2 wg := by
  intro s hs
  simp only [points_from_geometry, List.mem_map, List.mem_filter] at hs ⊢
  obtain ⟨s0, ⟨hcat, hkeep⟩, rfl⟩ := hs
  refine ⟨s0, ⟨hcat, ?_⟩, rfl⟩
  rw [Bool.and_eq_true] at hkeep ⊢
  refine ⟨hkeep.1, ?_⟩
  have hk := hkeep.2
  cases wg
  · exact bboxContains_mono _ b1 b2 _ h12 hk
  · exact bufferedContains_mono _ b1 b2 _ h0 h12 hk

/-- Instance of C6: Gin Flat, discovered around the sample square with
buffer 5, is still discovered with buffer 6. -/
theorem buffer_monotone_example :
    remove_z_station ginFlat ∈
      points_from_geometry CDECPointData [tenayaLake, ginFlat] squareRegion [RH] 6 true := by
  refine buffer_monotone CDECPointData [tenayaLake, ginFlat] squareRegion [RH] 5 6 true
    (by norm_num) (by norm_num) (remove_z_station ginFlat) ?_
  norm_num [points_from_geometry, bufferedContains, insidePoly, edges, rayCrosses,
    sqDistSeg, squareRegion, remove_z, remove_z_station, supportsAny, activeRegistry,
    CDECPointData, cdecRegistry, RH, WINDSP, tenayaLake, ginFlat, List.filter, List.any]

/-- Claim C7: in a registry with unique codes, looking up the code of any
defined sensor succeeds and returns that sensor, whose code field
round-trips exactly. -/
theorem registry_lookup_roundtrip (reg : Registry) (hu : List.Nodup (codesOf reg)) :
    ∀ s ∈ reg, lookup reg s.code = some s := by
  revert hu
  induction reg with
  | nil =>
    intro _ s hs
    exact absurd hs (List.not_mem_nil s)
  | cons a l ih =>
    intro hu s hs
    rcases List.nodup_cons.mp hu with ⟨hna, hnl⟩
    rcases List.mem_cons.mp hs with rfl | hs2
    · unfold lookup
      rw [List.find?_cons_of_pos _ (by simp)]
    · have hne : ¬(decide (a.code = s.code)) = true := by
        simp only [decide_eq_true_eq]
        intro hcon
        refine hna ?_
        rw [hcon]
        exact List.mem_map_of_mem SensorDescription.code hs2
      unfold lookup
      rw [@List.find?_cons_of_neg SensorDescription
        (fun s2 => decide (s2.code = s.code)) a l hne]
      exact ih hnl s hs2

/-- Instance of C7: looking up the relative-humidity code in the CDEC
registry returns the relative-humidity sensor itself. -/
theorem registry_lookup_roundtrip_example :
    lookup cdecRegistry (SensorDescription.code RH) = some RH :=
  registry_lookup_roundtrip cdecRegistry (by decide) RH (by decide)

/-- Claim C8: discovery projects a region carrying Z coordinates to 2D
before the containment test - flattening the region or the catalog
geometries first changes nothing - and every station surfaced to the
caller has its geometry flattened, with no retained Z coordinate. -/
theorem discovery_removes_z (v : PointDataVariant) (catalog : List Station)
    (region : List PointZ) (vars : List SensorDescription) (buffer : ℚ)
    (wg : Bool) :
    (∀ s ∈ points_from_geometry v catalog region vars buffer wg,
      s.geom.z = none) ∧
    points_from_geometry v catalog (List.map remove_z region) vars buffer wg =
      points_from_geometry v catalog region vars buffer wg ∧
    points_from_geometry v (List.map remove_z_station catalog) region vars buffer wg =
      points_from_geometry v catalog region vars buffer wg := by
  refine ⟨?_, ?_, ?_⟩
  · intro s hs
    simp only [points_from_geometry, List.mem_map] at hs
    obtain ⟨s0, _, rfl⟩ := hs
    rfl
  · have hbc : ∀ (b : ℚ) (p : PointZ),
        bufferedContains (List.map remove_z region) b p =
          bufferedContains region b p := by
      intro b p
      unfold bufferedContains
      rw [map_remove_z_idem]
    simp only [points_from_geometry, hbc, map_remove_z_idem]
  · unfold points_from_geometry
    rw [List.filter_map remove_z_station catalog, List.map_map]
    rfl

/-- Instance of C8: the Tenaya Lake station, whose source geometry has a
Z coordinate, is surfaced by discovery with the Z coordinate removed. -/
theorem discovery_removes_z_example :
    (remove_z_station tenayaLake).geom.z = none := by
  refine (discovery_removes_z CDECPointData [tenayaLake, ginFlat]
    squareRegion [RH] 0 true).1 (remove_z_station tenayaLake) ?_
  norm_num [points_from_geometry, bufferedContains, insidePoly, edges, rayCrosses,
    sqDistSeg, squareRegion, remove_z, remove_z_station, supportsAny, activeRegistry,
    CDECPointData, cdecRegistry, RH, WINDSP, tenayaLake, ginFlat, List.filter, List.any]

/-- Claim C9: every row of a retrieval result and every row of a station
collection's flat table carries a datasource column identifying the
providing network, so tables from different networks can be concatenated
without losing per-row provenance. -/
theorem dataframes_include_datasource (v : PointDataVariant) (st : Station)
    (perVariable : List (List RawRecord)) (rows : List OutRow)
    (h : get_daily_data v st perVariable = some rows) :
    (∀ r ∈ rows, r.datasource = v.network) ∧
    (∀ stations : List Station, ∀ p ∈ to_dataframe stations,
      ∃ s ∈ stations, p.datasource = s.network ∧ p.id = s.id ∧ p.geom = s.geom) := by
  constructor
  · intro r hr
    unfold get_daily_data at h
    by_cases hall : List.all perVariable List.isEmpty = true
    · rw [if_pos hall] at h
      exact absurd h (by simp)
    · rw [if_neg hall] at h
      have hrows := Option.some.inj h
      rw [← hrows] at hr
      rcases List.mem_map.mp hr with ⟨r0, _, rfl⟩
      rfl
  · intro stations p hp
    unfold to_dataframe at hp
    rcases List.mem_map.mp hp with ⟨s, hs, rfl⟩
    exact ⟨s, hs, rfl, rfl, rfl⟩

/-- Instance of C9: the first merged row of the sample CDEC retrieval
carries the CDEC datasource tag. -/
theorem dataframes_include_datasource_example :
    OutRow.mk 1 "TNY" "CDEC" [some 100, none] ∈ sampleRows ∧
    (OutRow.mk 1 "TNY" "CDEC" [some 100, none]).datasource =
      PointDataVariant.network CDECPointData := by
  refine ⟨by decide, ?_⟩
  exact (dataframes_include_datasource CDECPointData tenayaLake [recsA, recsB]
    sampleRows (by decide)).1 (OutRow.mk 1 "TNY" "CDEC" [some 100, none]) (by decide)

/-- Claim C10: the measurementDate column appears in retrieval output
exactly for snow-course requests - daily, hourly and instantaneous
results have no measurementDate column. -/
theorem measurement_date_only_snow_course (res : Resolution)
    (varNames : List String) (h : "measurementDate" ∉ varNames) :
    ("measurementDate" ∈ outputColumns res varNames ↔
      res = Resolution.snowCourse) := by
  unfold outputColumns
  cases res <;> simp [h]

/-- Instance of C10: with variable column SWE, the snow-course output
contains the measurementDate column. -/
theorem measurement_date_only_snow_course_example :
    ("measurementDate" ∈ outputColumns Resolution.snowCourse ["SWE"] ↔
      Resolution.snowCourse = Resolution.snowCourse) :=
  measurement_date_only_snow_course Resolution.snowCourse ["SWE"] (by decide)

end Metloom
